import Mathlib

/-!
Shallow embedding of the tactical-map core of this repository
(`map/map.py`, class `TileMap`).

The grid state of a `TileMap` is modelled by `MapState`: the terrain
dictionary `self.terrains` becomes a partial map `Coord → Option Terrain`
(a missing key, i.e. Python's `KeyError`, is `none`), unit attributes live
in `units : UnitId → GameUnit`, and the selection / undo bookkeeping
fields (`curr_sel`, `prev_sel`, `move_area`, `attack_area`, `return_path`,
the arrow path) are carried verbatim.  Methods that mutate `self` become
pure functions `MapState → … → MapState`, and methods that can raise
become `Except MapErr …`.

Files `map/pathfinder.py`, `unit.py` and `utils.py` are not under `src/`;
the few facts needed from them (`utils.distance` is Manhattan distance,
`Pathfinder.area` is the reachable-area flood fill, `Unit.move` updates
the unit's coordinate, `are_enemies` fails with `AttributeError` when one
of its arguments is not an actual unit) are modelled from the spec and
marked as such on their definitions.

Rendering-only effects (sprite animation frames, `update_highlight`,
`print`, logging) have no bearing on the modelled state and are omitted;
the animation of `move_animation` only *replays* a path that the caller
already holds, so `move` takes that path as an explicit argument.
-/

/-- Grid coordinate `(x, y)`, a pair of Python ints. -/
abbrev Coord : Type := Int × Int

/-- Identifier of a unit object (units are compared by identity in the
Python code; we key them by an id). -/
abbrev UnitId : Type := Nat

/-- The attributes of a `unit.Unit` object that the map core reads.
Modelled from the spec for the fields whose definitions live in the
missing `unit.py`: `coord` (the unit's own coordinate attribute),
`played` (`has_acted`), `movement` (movement budget),
`allowed_terrains` (`get_allowed_terrains()`, the traversal-capability
tags) and `weapon_range` (`get_weapon_range()`, a `(min, max)` pair). -/
structure GameUnit where
  coord : Coord
  played : Bool
  movement : Nat
  allowed_terrains : List String
  weapon_range : Nat × Nat
  deriving DecidableEq, Repr

/-- One value of the `terrains` dictionary (`map.pathfinder.Terrain`):
the fields the map core reads are the occupant reference `unit` and the
list `allowed` of traversal tags (possibly the sentinels `"any"` /
`"none"`). -/
structure Terrain where
  unit : Option UnitId
  allowed : List String
  deriving DecidableEq, Repr

/-- Errors the Python methods can raise.  `keyError` is a missing
dictionary key (`self.terrains[coord]` on an absent coordinate),
`occupiedDestination` is the `ValueError("Destination … is already
occupied …")` raised by `move`, `attributeError` is an attribute access
on `None`, `indexError` is `list.pop()` on an empty list. -/
inductive MapErr where
  | keyError
  | occupiedDestination
  | attributeError
  | indexError
  deriving DecidableEq, Repr

/-- The mutable state of a `TileMap` that the claims are about. -/
structure MapState where
  w : Int
  h : Int
  terrains : Coord → Option Terrain
  units : UnitId → GameUnit
  /-- External collaborator `self.units_manager.are_enemies` restricted
  to actual units (see `is_obstacle` for the `None` behaviour). -/
  are_enemies : UnitId → UnitId → Bool
  /-- External collaborator `self.units_manager.active_team.is_mine`. -/
  is_mine : UnitId → Bool
  curr_sel : Option Coord
  prev_sel : Option Coord
  move_area : List Coord
  attack_area : List Coord
  /-- The path currently displayed by `self.arrow` (`arrow.set_path`). -/
  arrow_path : List Coord
  /-- `self.return_path`: the stored path used to undo a move. -/
  return_path : Option (List Coord)

/-- Modelled from the spec: `utils.distance` (file `utils.py` is not
under `src/`); per the spec "`distance` is always Manhattan". -/
def distance (a b : Coord) : Nat :=
  (a.1 - b.1).natAbs + (a.2 - b.2).natAbs

/-- `TileMap.check_coord`: `0 <= x < self.w and 0 <= y < self.h`. -/
def check_coord (s : MapState) (coord : Coord) : Bool :=
  0 ≤ coord.1 && coord.1 < s.w && 0 ≤ coord.2 && coord.2 < s.h

/-- `TileMap.__getitem__`: `self.terrains[coord]`; `none` models the
`KeyError` a missing key raises. -/
def getitem (s : MapState) (coord : Coord) : Option Terrain :=
  s.terrains coord

/-- `TileMap.get_unit`: `self.terrains[coord].unit`; the outer `none`
models the `KeyError` on a missing key. -/
def get_unit (s : MapState) (coord : Coord) : Option (Option UnitId) :=
  (s.terrains coord).map Terrain.unit

/-- The terrain-tag loop of `TileMap.is_obstacle` (lines 166-174):
`for allowed in terrain.allowed: if allowed == 'any': return False
elif allowed == 'none': return True; if allowed in unit_allowed:
return False` and `return True` after the loop. -/
def terrain_blocks : List String → List String → Bool
  | [], _ => true
  | a :: rest, unit_allowed =>
    if a = "any" then false
    else if a = "none" then true
    else if a ∈ unit_allowed then false
    else terrain_blocks rest unit_allowed

/-- `TileMap.is_obstacle`.  The Python body first tries
`self.units_manager.are_enemies(unit, terrain.unit)`; modelled from the
spec (the "exception-driven type narrowing" design note and the missing
`unit.py`): `are_enemies` raises `AttributeError` exactly when one of
its arguments is `None`, which the `except AttributeError` branch then
handles.  The outer `none` models the `KeyError` of
`self.terrains[coord]` on a missing key. -/
def is_obstacle (s : MapState) (coord : Coord)
    (u : Option UnitId := none) : Option Bool :=
  (s.terrains coord).map (fun terrain =>
    match u, terrain.unit with
    | some uid, some vid => s.are_enemies uid vid
    | _, _ =>
      -- `except AttributeError:` branch
      match u with
      | none => false
      | some uid => terrain_blocks terrain.allowed (s.units uid).allowed_terrains)

/-- Point update of the terrain dictionary: `self.terrains[c].unit = u`.
Callers establish that the key is present before using this (the Python
statement raises `KeyError` otherwise). -/
def set_unit_at (t : Coord → Option Terrain) (c : Coord) (u : Option UnitId) :
    Coord → Option Terrain :=
  fun c' => if c' = c then (t c).map (fun ter => { ter with unit := u }) else t c'

/-- Point update of the unit store: `unit.move(new_coord)`; modelled
from the spec for the missing `unit.py`: `Unit.move` updates the unit's
own coordinate attribute. -/
def set_unit_coord (us : UnitId → GameUnit) (uid : UnitId) (c : Coord) :
    UnitId → GameUnit :=
  fun i => if i = uid then { us i with coord := c } else us i

/-- `TileMap.move(unit, new_coord)`.  `path` is the traveled path
returned by `move_animation` — which merely animates and returns the
result of `Pathfinder.shortest_path(unit.coord, target, unit.movement)`
(file `map/pathfinder.py` is not under `src/`), the sequence of cells
stepped through after leaving the origin, ending at the destination.
The body: if the coordinates are equal, nothing happens; otherwise the
occupied-destination check runs first (raising before any mutation),
then `return_path` is set to the path with its last element popped,
reversed, with the origin appended; then the origin cell's occupant is
cleared, the destination cell's occupant is set, and the unit's
coordinate is updated. -/
def move (s : MapState) (uid : UnitId) (path : List Coord) (new_coord : Coord) :
    Except MapErr MapState :=
  let old := (s.units uid).coord
  if old = new_coord then
    .ok s
  else
    match get_unit s new_coord with
    | none => .error .keyError
    | some (some _) => .error .occupiedDestination
    | some none =>
      -- `self.return_path.pop()` raises IndexError on an empty path
      if path.isEmpty then .error .indexError
      else
        let rp := path.dropLast.reverse ++ [old]
        match s.terrains old with
        | none => .error .keyError   -- `self.terrains[unit.coord]`
        | some _ =>
          .ok { s with
                return_path := some rp,
                terrains := set_unit_at (set_unit_at s.terrains old none)
                              new_coord (some uid),
                units := set_unit_coord s.units uid new_coord }

/-- `TileMap.curr_unit` property: `self.terrains[self.curr_sel].unit`
with `except KeyError: return None`. -/
def curr_unit (s : MapState) : Option UnitId :=
  match s.curr_sel with
  | none => none
  | some c =>
    match s.terrains c with
    | none => none
    | some t => t.unit

/-- `TileMap.reset_selection` (the `update_highlight` call only redraws). -/
def reset_selection (s : MapState) : MapState :=
  { s with curr_sel := none, prev_sel := none,
           move_area := [], attack_area := [], arrow_path := [] }

/-- `TileMap.move_undo`.  When `curr_sel != prev_sel`: read
`unit = self.curr_unit`; if `self.return_path` is truthy, replay it as
an animation (rendering only) and set it to `None`; then
`self.terrains[self.prev_sel].unit = unit`,
`self.terrains[self.curr_sel].unit = None`, `unit.move(self.prev_sel)`;
finally `reset_selection()` in every case. -/
def move_undo (s : MapState) : Except MapErr MapState :=
  if s.curr_sel = s.prev_sel then
    .ok (reset_selection s)
  else
    let u := curr_unit s
    let s1 :=
      match s.return_path with
      | some (_ :: _) => { s with return_path := none }
      | _ => s
    match s.prev_sel with
    | none => .error .keyError       -- `self.terrains[None]`
    | some pc =>
      match s1.terrains pc with
      | none => .error .keyError
      | some _ =>
        let s2 := { s1 with terrains := set_unit_at s1.terrains pc u }
        match s.curr_sel with
        | none => .error .keyError
        | some cc =>
          match s2.terrains cc with
          | none => .error .keyError
          | some _ =>
            let s3 := { s2 with terrains := set_unit_at s2.terrains cc none }
            match u with
            | none => .error .attributeError    -- `None.move(...)`
            | some uid =>
              .ok (reset_selection
                { s3 with units := set_unit_coord s3.units uid pc })

/-- The inclusive integer interval `[lo, hi]` as a list, the set of
values of a Python `range(lo, hi + 1)` loop. -/
def rangeInt (lo hi : Int) : List Int :=
  (List.range (hi + 1 - lo).toNat).map (fun (k : Nat) => lo + (k : Int))

/-- The square of side `2 * r + 1` around `c`, enumerated exactly like
the nested loops `for i in range(x - r, x + r + 1): for j in
range(y - r, y + r + 1)` of `__set_attack_area` and `area`. -/
def squareCoords (c : Coord) (r : Nat) : List Coord :=
  (rangeInt (c.1 - r) (c.1 + r)).flatMap (fun i =>
    (rangeInt (c.2 - r) (c.2 + r)).map (fun j => (i, j)))

/-- `TileMap.area(center, radius, hole=0)`: the comprehension over the
square around `center` keeping in-bounds coordinates whose Manhattan
distance from `center` lies in `[hole, radius]`. -/
def area (s : MapState) (center : Coord) (radius : Nat) (hole : Nat := 0) :
    List Coord :=
  (squareCoords center radius).filter (fun p =>
    check_coord s p && hole ≤ distance center p && distance center p ≤ radius)

/-- `TileMap.__set_attack_area(coord, min_range, max_range)` as a pure
function of the data it reads and writes: folds the square around
`coord` into the accumulated `attack_area` `acc`, appending `(i, j)`
when it is in neither `move_area` nor the attack area built so far and
its distance from `coord` lies in `[min_range, max_range]`.  Note the
Python loop performs no bounds check. -/
def set_attack_area (mv : List Coord) (min_range max_range : Nat)
    (coord : Coord) (acc : List Coord) : List Coord :=
  (squareCoords coord max_range).foldl (fun acc p =>
    if p ∉ mv ∧ p ∉ acc ∧ min_range ≤ distance coord p ∧
        distance coord p ≤ max_range then
      acc ++ [p]
    else acc) acc

/-- `TileMap.move_attack_area`: reads the selected unit's weapon range
(`AttributeError` when there is no selected unit), clears
`attack_area`, then runs `__set_attack_area` for every coordinate of
`move_area`. -/
def move_attack_area (s : MapState) : Except MapErr MapState :=
  match curr_unit s with
  | none => .error .attributeError   -- `self.curr_unit.get_weapon_range()`
  | some uid =>
    let (mn, mx) := (s.units uid).weapon_range
    .ok { s with attack_area :=
            s.move_area.foldl (fun acc c => set_attack_area s.move_area mn mx c acc) [] }

/-- `TileMap.still_attack_area`: clears both areas, then runs
`__set_attack_area(self.curr_sel, …)` — with `move_area` already
emptied, so nothing is excluded.  `AttributeError` when there is no
selected unit, `KeyError`-like failure when `curr_sel` is `None`
(Python would pass `None` as a coordinate). -/
def still_attack_area (s : MapState) : Except MapErr MapState :=
  match curr_unit s, s.curr_sel with
  | some uid, some c =>
    let (mn, mx) := (s.units uid).weapon_range
    .ok { s with move_area := [],
                 attack_area := set_attack_area [] mn mx c [] }
  | _, _ => .error .attributeError

/-- The four orthogonal neighbour candidates of `TileMap.neighbors`
(line 188), before the bounds filter. -/
def neighborCandidates (c : Coord) : List Coord :=
  [(c.1 + 1, c.2), (c.1 - 1, c.2), (c.1, c.2 + 1), (c.1, c.2 - 1)]

/-- `TileMap.neighbors(coord)`: raises on an invalid coordinate, else
filters the four orthogonal candidates by `check_coord`. -/
def neighbors (s : MapState) (coord : Coord) : Except MapErr (List Coord) :=
  if check_coord s coord then
    .ok ((neighborCandidates coord).filter (check_coord s))
  else
    .error .keyError   -- `raise ValueError("Invalid coordinates")`

/-- One frontier-expansion step of the reachable-area flood fill: adds
to `visited` every in-bounds, non-obstacle neighbour of a visited cell
not already present. -/
def expandStep (s : MapState) (uid : UnitId) (visited : List Coord) :
    List Coord :=
  visited.foldl (fun acc c =>
    (neighborCandidates c).foldl (fun acc n =>
      if check_coord s n ∧ n ∉ acc ∧ is_obstacle s n (some uid) = some false then
        acc ++ [n]
      else acc) acc) visited

/-- Modelled from the spec: `Pathfinder.area(origin, budget)` /
`reachable_area` (file `map/pathfinder.py` is not under `src/`); per
§4.2 it is a frontier-expansion flood fill that respects obstacles
(`is_obstacle` with the moving unit), expands while remaining budget
≥ 1, and always includes the origin. -/
def reachable_area (s : MapState) (uid : UnitId) (origin : Coord) :
    Nat → List Coord
  | 0 => [origin]
  | b + 1 => expandStep s uid (reachable_area s uid origin b)

/-- `TileMap.update_move_area`:
`self.move_area = self.path.area(self.curr_sel, self.curr_unit.movement)`;
`AttributeError` when there is no selected unit. -/
def update_move_area (s : MapState) : Except MapErr MapState :=
  match s.curr_sel, curr_unit s with
  | some c, some uid =>
    .ok { s with move_area := reachable_area s uid c (s.units uid).movement }
  | _, _ => .error .attributeError

/-- The branch of `TileMap.select(coord)` taken when nothing was
previously selected (lines 427-441): shift `curr_sel` into `prev_sel`,
set `curr_sel := coord`, clear the arrow; then, since `prev_sel` is
`None`, look up the unit at `coord` (`KeyError` if the coordinate has
no terrain): if there is none or it has already played, clear both
areas; otherwise compute the move area and the move-attack area.  The
branches taken when a previous selection exists (lines 442-466) drive
the action menu and the move flow and are outside the scope of the
claims; they are not modelled (the function returns the shifted state
unchanged there, and no theorem below relies on that case). -/
def select_idle (s0 : MapState) (coord : Coord) : Except MapErr MapState :=
  let s := { s0 with prev_sel := s0.curr_sel, curr_sel := some coord,
                     arrow_path := [] }
  match s.prev_sel with
  | some _ => .ok s
  | none =>
    match get_unit s coord with
    | none => .error .keyError
    | some u =>
      match u with
      | none => .ok { s with move_area := [], attack_area := [] }
      | some uid =>
        if (s.units uid).played then
          .ok { s with move_area := [], attack_area := [] }
        else
          match update_move_area s with
          | .error e => .error e
          | .ok s1 => move_attack_area s1

/-! ### Concrete states for witnesses -/

/-- A concrete 3×3 map: unit 0 (mine) at `(0, 0)`, unit 1 (enemy) at
`(1, 1)`, every cell plain `["any"]` terrain, nothing selected. -/
def demoState : MapState where
  w := 3
  h := 3
  terrains := fun c =>
    if 0 ≤ c.1 ∧ c.1 < 3 ∧ 0 ≤ c.2 ∧ c.2 < 3 then
      some { unit := if c = ((0 : Int), (0 : Int)) then some 0
                     else if c = ((1 : Int), (1 : Int)) then some 1
                     else none,
             allowed := ["any"] }
    else none
  units := fun i =>
    if i = 0 then
      { coord := (0, 0), played := false, movement := 1,
        allowed_terrains := ["grass"], weapon_range := (1, 1) }
    else
      { coord := (1, 1), played := false, movement := 1,
        allowed_terrains := ["grass"], weapon_range := (1, 1) }
  are_enemies := fun i j => decide (i ≠ j)
  is_mine := fun i => decide (i = 0)
  curr_sel := none
  prev_sel := none
  move_area := []
  attack_area := []
  arrow_path := []
  return_path := none

/-- The state after moving unit 0 of `demoState` one step to `(0, 1)`. -/
def demoMoved : MapState :=
  match move demoState 0 [(0, 1)] (0, 1) with
  | .ok s => s
  | .error _ => demoState

/-- The state after undoing that move (selection as the `select` flow
leaves it: `curr_sel` at the destination, `prev_sel` at the origin). -/
def demoUndone : MapState :=
  match move_undo { demoMoved with curr_sel := some (0, 1),
                                   prev_sel := some (0, 0) } with
  | .ok s => s
  | .error _ => demoState

/-! ### Claims C1, C2, C10, C3: move and undo -/

/-- Elimination of a successful proper move: the destination had an
unoccupied terrain, the origin had a terrain, the path is non-empty,
and the result state is the original with the three occupancy updates
and the recorded return path. -/
theorem move_ok_elim (s s' : MapState) (uid : UnitId) (path : List Coord)
    (b : Coord) (hne : (s.units uid).coord ≠ b)
    (h : move s uid path b = .ok s') :
    ∃ told tb, s.terrains (s.units uid).coord = some told ∧
      s.terrains b = some tb ∧ tb.unit = none ∧ path ≠ [] ∧
      s' = { s with
             return_path := some (path.dropLast.reverse ++ [(s.units uid).coord]),
             terrains := set_unit_at (set_unit_at s.terrains
                           (s.units uid).coord none) b (some uid),
             units := set_unit_coord s.units uid b } := by
  unfold move at h
  rw [if_neg hne] at h
  cases htb : s.terrains b with
  | none => simp [get_unit, htb] at h
  | some tb =>
    cases htbu : tb.unit with
    | some v => simp [get_unit, htb, htbu] at h
    | none =>
      simp only [get_unit, htb, Option.map_some', htbu] at h
      cases hp : path.isEmpty with
      | true => rw [hp] at h; simp at h
      | false =>
        rw [hp] at h
        cases ht : s.terrains (s.units uid).coord with
        | none => rw [ht] at h; simp at h
        | some told =>
          rw [ht] at h
          simp only [Bool.false_eq_true, if_false, Except.ok.injEq] at h
          exact ⟨told, tb, rfl, rfl, htbu,
            by simpa [List.isEmpty_iff] using hp, h.symm⟩

/-- C1: if the destination differs from the unit's coordinate and the
cell there already holds a unit, `move` fails with the
occupied-destination error; since `move` returns only the error and no
state, grid occupancy, the unit's coordinate and the stored undo path
are exactly as before the call — nothing is mutated before the check in
the source, and this holds for any occupant, in particular an enemy. -/
theorem move_occupied_destination (s : MapState) (uid vid : UnitId)
    (path : List Coord) (d : Coord) (t : Terrain)
    (hne : (s.units uid).coord ≠ d)
    (ht : s.terrains d = some t) (hocc : t.unit = some vid) :
    move s uid path d = .error .occupiedDestination := by
  unfold move
  rw [if_neg hne]
  simp [get_unit, ht, hocc]

/-- Witness for C1 at a concrete input: moving unit 0 of `demoState`
onto the enemy-occupied cell `(1, 1)` fails. -/
theorem move_occupied_destination_witness :
    (demoState.units 0).coord ≠ ((1 : Int), (1 : Int)) ∧
    demoState.terrains (1, 1) = some { unit := some 1, allowed := ["any"] } ∧
    move demoState 0 [(0, 1), (1, 1)] (1, 1) = .error .occupiedDestination :=
  ⟨by decide, by decide,
   move_occupied_destination demoState 0 1 [(0, 1), (1, 1)] (1, 1)
     { unit := some 1, allowed := ["any"] } (by decide) (by decide) rfl⟩

/-- C2: after a successful proper move, the destination cell's occupant
is the unit, the origin cell's occupant is cleared, and the unit's
coordinate equals the destination — all three in the single returned
state, so no intermediate state is observable — and the stored undo
path is the reversed copy of the traveled path (last step popped,
reversed, origin appended), which ends at the old coordinate. -/
theorem move_success_updates (s s' : MapState) (uid : UnitId)
    (path : List Coord) (b : Coord)
    (hne : (s.units uid).coord ≠ b)
    (h : move s uid path b = .ok s') :
    (s'.terrains b).map Terrain.unit = some (some uid) ∧
    (s'.terrains (s.units uid).coord).map Terrain.unit = some none ∧
    (s'.units uid).coord = b ∧
    s'.return_path = some (path.dropLast.reverse ++ [(s.units uid).coord]) ∧
    (path.dropLast.reverse ++ [(s.units uid).coord]).getLast?
      = some (s.units uid).coord := by
  obtain ⟨told, tb, ht, htb, htbu, -, rfl⟩ := move_ok_elim s s' uid path b hne h
  refine ⟨?_, ?_, ?_, rfl, by simp⟩
  · simp [set_unit_at, hne, Ne.symm hne, htb, ht]
  · simp [set_unit_at, hne, Ne.symm hne, htb, ht]
  · simp [set_unit_coord]

/-- Witness for C2 at a concrete input: unit 0 of `demoState` moves one
step to the empty cell `(0, 1)`. -/
theorem move_success_updates_witness :
    (demoState.units 0).coord ≠ ((0 : Int), (1 : Int)) ∧
    ((demoMoved.terrains (0, 1)).map Terrain.unit = some (some 0) ∧
     (demoMoved.terrains (demoState.units 0).coord).map Terrain.unit = some none ∧
     (demoMoved.units 0).coord = (0, 1) ∧
     demoMoved.return_path
       = some (([((0 : Int), (1 : Int))].dropLast).reverse ++ [(demoState.units 0).coord]) ∧
     (([((0 : Int), (1 : Int))].dropLast).reverse ++ [(demoState.units 0).coord]).getLast?
       = some (demoState.units 0).coord) :=
  ⟨by decide,
   move_success_updates demoState demoMoved 0 [(0, 1)] (0, 1) (by decide) rfl⟩

/-- C10: a move whose destination equals the unit's current coordinate
is a complete no-op — the returned state is the input state itself, so
no error is raised, occupancy and the unit's coordinate are unchanged,
and no undo path is recorded. -/
theorem move_same_coord_noop (s : MapState) (uid : UnitId)
    (path : List Coord) (d : Coord) (h : (s.units uid).coord = d) :
    move s uid path d = .ok s := by
  unfold move
  rw [if_pos h]

/-- Witness for C10 at a concrete input. -/
theorem move_same_coord_noop_witness :
    (demoState.units 0).coord = ((0 : Int), (0 : Int)) ∧
    move demoState 0 [] (0, 0) = .ok demoState :=
  ⟨by decide, move_same_coord_noop demoState 0 [] (0, 0) (by decide)⟩


/-- C3: after a successful proper move of a unit from `a` to `b`, with
the selection as the `select` flow leaves it (`curr_sel` at the
destination, `prev_sel` at the origin), `move_undo` succeeds and
restores the exact pre-move state: the cell at `a` again holds the
unit, the cell at `b` holds no occupant, the unit's coordinate is `a`,
the stored undo path is cleared, and the selection is reset to idle —
no current or previous selection and empty move and attack areas. -/
theorem move_undo_restores (s s1 s2 : MapState) (uid : UnitId)
    (path : List Coord) (a b : Coord)
    (ha : (s.units uid).coord = a)
    (hne : a ≠ b)
    (hmv : move s uid path b = .ok s1)
    (hund : move_undo { s1 with curr_sel := some b, prev_sel := some a }
              = .ok s2) :
    (s2.terrains a).map Terrain.unit = some (some uid) ∧
    (s2.terrains b).map Terrain.unit = some none ∧
    (s2.units uid).coord = a ∧
    s2.return_path = none ∧
    s2.curr_sel = none ∧ s2.prev_sel = none ∧
    s2.move_area = [] ∧ s2.attack_area = [] := by
  subst ha
  obtain ⟨told, tb, ht, htb, htbu, hp, rfl⟩ :=
    move_ok_elim s s1 uid path b hne hmv
  obtain ⟨x, xs, hrp⟩ : ∃ x xs,
      path.dropLast.reverse ++ [(s.units uid).coord] = x :: xs := by
    cases hc : path.dropLast.reverse ++ [(s.units uid).coord] with
    | nil => simp at hc
    | cons x xs => exact ⟨x, xs, rfl⟩
  rw [hrp] at hund
  rw [move_undo] at hund
  rw [if_neg (show ¬ (some b = some (s.units uid).coord) by
        simpa using Ne.symm hne)] at hund
  simp [curr_unit, set_unit_at, reset_selection, hne, Ne.symm hne,
        ht, htb, htbu] at hund
  subst hund
  refine ⟨?_, ?_, ?_, rfl, rfl, rfl, rfl, rfl⟩
  · simp [set_unit_at, hne, Ne.symm hne, ht, htb]
  · simp [set_unit_at, hne, Ne.symm hne, ht, htb]
  · simp [set_unit_coord]

/-- Witness for C3 at a concrete input: unit 0 of `demoState` moves to
`(0, 1)` and the move is then undone. -/
theorem move_undo_restores_witness :
    (demoState.units 0).coord = ((0 : Int), (0 : Int)) ∧
    ((0 : Int), (0 : Int)) ≠ ((0 : Int), (1 : Int)) ∧
    ((demoUndone.terrains (0, 0)).map Terrain.unit = some (some 0) ∧
     (demoUndone.terrains (0, 1)).map Terrain.unit = some none ∧
     (demoUndone.units 0).coord = (0, 0) ∧
     demoUndone.return_path = none ∧
     demoUndone.curr_sel = none ∧ demoUndone.prev_sel = none ∧
     demoUndone.move_area = [] ∧ demoUndone.attack_area = []) :=
  ⟨rfl, by decide,
   move_undo_restores demoState demoMoved demoUndone 0 [(0, 1)] (0, 0) (0, 1)
     rfl (by decide) rfl rfl⟩

/-! ### Claims C8, C7: rings and area hygiene -/

theorem mem_rangeInt {lo hi a : Int} : a ∈ rangeInt lo hi ↔ lo ≤ a ∧ a ≤ hi := by
  unfold rangeInt
  rw [List.mem_map]
  constructor
  · rintro ⟨k, hk, rfl⟩
    rw [List.mem_range] at hk
    omega
  · rintro ⟨h1, h2⟩
    refine ⟨(a - lo).toNat, ?_, ?_⟩
    · rw [List.mem_range]
      omega
    · omega

theorem mem_squareCoords {c : Coord} {r : Nat} {p : Coord} :
    p ∈ squareCoords c r ↔
      c.1 - r ≤ p.1 ∧ p.1 ≤ c.1 + r ∧ c.2 - r ≤ p.2 ∧ p.2 ≤ c.2 + r := by
  unfold squareCoords
  simp only [List.mem_flatMap, List.mem_map, mem_rangeInt]
  constructor
  · rintro ⟨i, hi, j, hj, rfl⟩
    exact ⟨hi.1, hi.2, hj.1, hj.2⟩
  · rintro ⟨h1, h2, h3, h4⟩
    exact ⟨p.1, ⟨h1, h2⟩, p.2, ⟨h3, h4⟩, rfl⟩

/-- A coordinate within Manhattan distance `r` of `c` lies in the
square of radius `r` around `c`. -/
theorem mem_squareCoords_of_distance_le {c p : Coord} {r : Nat}
    (h : distance c p ≤ r) : p ∈ squareCoords c r := by
  rw [mem_squareCoords]
  unfold distance at h
  omega

/-- C8: `area(center, radius, hole)` contains a coordinate exactly when
it is in bounds and its Manhattan distance from the center lies in
`[hole, radius]`; with `hole = max = 1` at an interior center this is
exactly the four orthogonal neighbours (see the witness). -/
theorem area_mem_iff (s : MapState) (center : Coord) (radius hole : Nat)
    (hm : hole ≤ radius) (c : Coord) :
    c ∈ area s center radius hole ↔
      check_coord s c = true ∧ hole ≤ distance center c ∧
        distance center c ≤ radius := by
  unfold area
  rw [List.mem_filter]
  constructor
  · rintro ⟨-, h⟩
    have h' := by simpa [Bool.and_eq_true, decide_eq_true_eq] using h
    exact ⟨h'.1.1, h'.1.2, h'.2⟩
  · rintro ⟨h1, h2, h3⟩
    exact ⟨mem_squareCoords_of_distance_le h3,
           by simp [Bool.and_eq_true, decide_eq_true_eq, h1, h2, h3]⟩

/-- An empty 5×5 map (all cells plain terrain, no units). -/
def demo5 : MapState where
  w := 5
  h := 5
  terrains := fun c =>
    if 0 ≤ c.1 ∧ c.1 < 5 ∧ 0 ≤ c.2 ∧ c.2 < 5 then
      some { unit := none, allowed := ["any"] }
    else none
  units := fun _ =>
    { coord := (0, 0), played := false, movement := 2,
      allowed_terrains := ["grass"], weapon_range := (1, 1) }
  are_enemies := fun i j => decide (i ≠ j)
  is_mine := fun i => decide (i = 0)
  curr_sel := none
  prev_sel := none
  move_area := []
  attack_area := []
  arrow_path := []
  return_path := none

/-- Witness for C8 at a concrete input: ring `min = max = 1` at the
interior center `(2, 2)` of the 5×5 map — the result is exactly the
four orthogonal neighbours, and the characterization holds e.g. at
`(1, 2)`. -/
theorem area_mem_iff_witness :
    (1 : Nat) ≤ 1 ∧
    area demo5 (2, 2) 1 1 = [(1, 2), (2, 1), (2, 3), (3, 2)] ∧
    (((1 : Int), (2 : Int)) ∈ area demo5 (2, 2) 1 1 ↔
      check_coord demo5 (1, 2) = true ∧ 1 ≤ distance (2, 2) (1, 2) ∧
        distance (2, 2) (1, 2) ≤ 1) :=
  ⟨le_refl 1, by decide, area_mem_iff demo5 (2, 2) 1 1 (le_refl 1) (1, 2)⟩

theorem nodup_rangeInt (lo hi : Int) : (rangeInt lo hi).Nodup := by
  unfold rangeInt
  exact List.Nodup.map (fun a b h => by omega) (List.nodup_range _)

theorem nodup_squareCoords (c : Coord) (r : Nat) : (squareCoords c r).Nodup := by
  have : squareCoords c r
      = (rangeInt (c.1 - r) (c.1 + r)) ×ˢ (rangeInt (c.2 - r) (c.2 + r)) := rfl
  rw [this]
  exact List.Nodup.product (nodup_rangeInt _ _) (nodup_rangeInt _ _)

/-- The `__set_attack_area` loop never appends a coordinate already in
the accumulated attack area, so it preserves duplicate-freedom. -/
theorem nodup_set_attack_area (mv : List Coord) (mn mx : Nat) (m : Coord) :
    ∀ (l acc : List Coord), acc.Nodup →
      (l.foldl (fun acc p =>
        if p ∉ mv ∧ p ∉ acc ∧ mn ≤ distance m p ∧ distance m p ≤ mx
        then acc ++ [p] else acc) acc).Nodup
  | [], acc, h => h
  | p :: l, acc, h => by
    rw [List.foldl_cons]
    refine nodup_set_attack_area mv mn mx m l _ ?_
    by_cases hc : p ∉ mv ∧ p ∉ acc ∧ mn ≤ distance m p ∧ distance m p ≤ mx
    · rw [if_pos hc]
      simpa [List.nodup_append] using ⟨h, hc.2.1⟩
    · rwa [if_neg hc]

theorem nodup_set_attack_area' (mv acc : List Coord) (mn mx : Nat) (m : Coord)
    (h : acc.Nodup) : (set_attack_area mv mn mx m acc).Nodup :=
  nodup_set_attack_area mv mn mx m (squareCoords m mx) acc h

/-- The attack area built by folding `__set_attack_area` over the move
area is duplicate-free. -/
theorem nodup_attack_fold (mv : List Coord) (mn mx : Nat) :
    ∀ (l acc : List Coord), acc.Nodup →
      (l.foldl (fun acc c => set_attack_area mv mn mx c acc) acc).Nodup
  | [], acc, h => h
  | p :: l, acc, h => by
    rw [List.foldl_cons]
    exact nodup_attack_fold mv mn mx l _ (nodup_set_attack_area' mv acc mn mx p h)

/-- Counterexample to C7 as stated: `still_attack_area` for the unit at
the corner `(0, 0)` of the 3×3 map with weapon range `(1, 1)` produces
an attack area containing the out-of-bounds coordinate `(-1, 0)` — the
`__set_attack_area` loop has no bounds check. -/
theorem attack_area_out_of_bounds_cex :
    (match still_attack_area { demoState with curr_sel := some (0, 0) } with
     | .ok s => s
     | .error _ => demoState).attack_area
        = [(-1, 0), (0, -1), (0, 1), (1, 0)] ∧
    check_coord demoState ((-1 : Int), (0 : Int)) = false := by
  constructor
  · decide
  · decide

/-- C7 as amended: every computed area is duplicate-free, and the
`area` (ring) results are furthermore within grid bounds; but the
attack areas built by `__set_attack_area` (via `move_attack_area` or
`still_attack_area`) are not bounds-filtered, so they are only
duplicate-free (the counterexample shows an out-of-bounds member). -/
theorem areas_nodup_and_area_in_bounds (s s' s'' : MapState)
    (center : Coord) (radius hole : Nat)
    (hma : move_attack_area s = .ok s')
    (hsa : still_attack_area s = .ok s'') :
    (area s center radius hole).Nodup ∧
    (∀ c ∈ area s center radius hole, check_coord s c = true) ∧
    s'.attack_area.Nodup ∧
    s''.attack_area.Nodup := by
  refine ⟨?_, ?_, ?_, ?_⟩
  · exact List.Nodup.filter _ (nodup_squareCoords center radius)
  · intro c hc
    unfold area at hc
    rw [List.mem_filter] at hc
    have h' := by simpa [Bool.and_eq_true, decide_eq_true_eq] using hc.2
    exact h'.1.1
  · unfold move_attack_area at hma
    cases hcu : curr_unit s with
    | none => rw [hcu] at hma; exact absurd hma (by simp)
    | some uid =>
      rw [hcu] at hma
      simp only [Except.ok.injEq] at hma
      subst hma
      exact nodup_attack_fold _ _ _ _ [] List.nodup_nil
  · unfold still_attack_area at hsa
    cases hcu : curr_unit s with
    | none => rw [hcu] at hsa; exact absurd hsa (by simp)
    | some uid =>
      rw [hcu] at hsa
      cases hcs : s.curr_sel with
      | none => rw [hcs] at hsa; exact absurd hsa (by simp)
      | some c =>
        rw [hcs] at hsa
        simp only [Except.ok.injEq] at hsa
        subst hsa
        exact nodup_set_attack_area' _ _ _ _ _ List.nodup_nil

/-- `demoState` with the unit at `(0, 0)` selected. -/
def demoSel : MapState := { demoState with curr_sel := some (0, 0) }

/-- Result of `move_attack_area` on `demoSel`. -/
def demoSelMA : MapState :=
  match move_attack_area demoSel with
  | .ok s => s
  | .error _ => demoState

/-- Result of `still_attack_area` on `demoSel`. -/
def demoSelSA : MapState :=
  match still_attack_area demoSel with
  | .ok s => s
  | .error _ => demoState

/-- Witness for the amended C7 at a concrete input. -/
theorem areas_nodup_witness :
    move_attack_area demoSel = .ok demoSelMA ∧
    still_attack_area demoSel = .ok demoSelSA ∧
    ((area demoSel (2, 2) 1 1).Nodup ∧
     (∀ c ∈ area demoSel (2, 2) 1 1, check_coord demoSel c = true) ∧
     demoSelMA.attack_area.Nodup ∧
     demoSelSA.attack_area.Nodup) :=
  ⟨rfl, rfl,
   areas_nodup_and_area_in_bounds demoSel demoSelMA demoSelSA (2, 2) 1 1 rfl rfl⟩

/-! ### Claim C6: move-then-attack area -/

/-- Membership in the `__set_attack_area` loop over an arbitrary list of
candidate cells: a coordinate ends up in the result iff it was already
accumulated, or it is a candidate outside `move_area` whose distance
from the source cell lies in the weapon band. -/
theorem mem_attack_foldl (mv : List Coord) (mn mx : Nat) (m : Coord) :
    ∀ (l acc : List Coord) (c : Coord),
      c ∈ l.foldl (fun acc p =>
        if p ∉ mv ∧ p ∉ acc ∧ mn ≤ distance m p ∧ distance m p ≤ mx
        then acc ++ [p] else acc) acc ↔
      c ∈ acc ∨ (c ∈ l ∧ c ∉ mv ∧ mn ≤ distance m c ∧ distance m c ≤ mx)
  | [], acc, c => by simp
  | p :: l, acc, c => by
    rw [List.foldl_cons, mem_attack_foldl mv mn mx m l _ c]
    by_cases hc : p ∉ mv ∧ p ∉ acc ∧ mn ≤ distance m p ∧ distance m p ≤ mx
    · rw [if_pos hc]
      simp only [List.mem_append, List.mem_cons, List.not_mem_nil, or_false]
      constructor
      · rintro ((h | rfl) | h)
        · exact Or.inl h
        · exact Or.inr ⟨Or.inl rfl, hc.1, hc.2.2⟩
        · exact Or.inr ⟨Or.inr h.1, h.2⟩
      · rintro (h | ⟨(rfl | hm), hP⟩)
        · exact Or.inl (Or.inl h)
        · exact Or.inl (Or.inr rfl)
        · exact Or.inr ⟨hm, hP⟩
    · rw [if_neg hc]
      simp only [List.mem_cons]
      constructor
      · rintro (h | h)
        · exact Or.inl h
        · exact Or.inr ⟨Or.inr h.1, h.2⟩
      · rintro (h | ⟨(rfl | hm), hP⟩)
        · exact Or.inl h
        · -- the candidate itself satisfies the range test but was not
          -- appended: the only remaining reason is that it was
          -- already accumulated
          by_cases hacc : c ∈ acc
          · exact Or.inl hacc
          · exact absurd ⟨hP.1, hacc, hP.2⟩ hc
        · exact Or.inr ⟨hm, hP⟩

/-- Membership in one `__set_attack_area` call. -/
theorem mem_set_attack_area (mv acc : List Coord) (mn mx : Nat) (m c : Coord) :
    c ∈ set_attack_area mv mn mx m acc ↔
      c ∈ acc ∨ (c ∉ mv ∧ mn ≤ distance m c ∧ distance m c ≤ mx) := by
  unfold set_attack_area
  rw [mem_attack_foldl]
  have himp : mn ≤ distance m c ∧ distance m c ≤ mx → c ∈ squareCoords m mx :=
    fun h => mem_squareCoords_of_distance_le h.2
  constructor
  · rintro (h | h)
    · exact Or.inl h
    · exact Or.inr ⟨h.2.1, h.2.2⟩
  · rintro (h | h)
    · exact Or.inl h
    · exact Or.inr ⟨himp ⟨h.2.1, h.2.2⟩, h⟩

/-- Membership in the fold of `__set_attack_area` over the move area. -/
theorem mem_move_attack_foldl (mv : List Coord) (mn mx : Nat) :
    ∀ (l acc : List Coord) (c : Coord),
      c ∈ l.foldl (fun acc m => set_attack_area mv mn mx m acc) acc ↔
      c ∈ acc ∨ ((∃ m ∈ l, mn ≤ distance m c ∧ distance m c ≤ mx) ∧ c ∉ mv)
  | [], acc, c => by simp
  | p :: l, acc, c => by
    rw [List.foldl_cons, mem_move_attack_foldl mv mn mx l _ c,
        mem_set_attack_area]
    simp only [List.exists_mem_cons_iff]
    tauto

/-- C6: for any selected unit and weapon range, the attack area computed
by `move_attack_area` equals — as a set — the union over every `m` in
`move_area` of the Manhattan ring `min_range ≤ d(m, ·) ≤ max_range`,
minus `move_area` itself; consequently the attack area and its source
move area are disjoint. -/
theorem move_attack_area_spec (s s' : MapState) (uid : UnitId) (mn mx : Nat)
    (hcu : curr_unit s = some uid)
    (hwr : (s.units uid).weapon_range = (mn, mx))
    (h : move_attack_area s = .ok s') :
    (∀ c, c ∈ s'.attack_area ↔
        ((∃ m ∈ s.move_area, mn ≤ distance m c ∧ distance m c ≤ mx) ∧
         c ∉ s.move_area)) ∧
    (∀ c, c ∈ s'.attack_area → c ∉ s.move_area) := by
  unfold move_attack_area at h
  rw [hcu] at h
  simp only [hwr, Except.ok.injEq] at h
  subst h
  constructor
  · intro c
    rw [show ({ s with attack_area :=
          s.move_area.foldl (fun acc c =>
            set_attack_area s.move_area mn mx c acc) [] } : MapState).attack_area
        = s.move_area.foldl (fun acc c =>
            set_attack_area s.move_area mn mx c acc) [] from rfl]
    rw [mem_move_attack_foldl]
    simp
  · intro c hc
    rw [show ({ s with attack_area :=
          s.move_area.foldl (fun acc c =>
            set_attack_area s.move_area mn mx c acc) [] } : MapState).attack_area
        = s.move_area.foldl (fun acc c =>
            set_attack_area s.move_area mn mx c acc) [] from rfl] at hc
    rw [mem_move_attack_foldl] at hc
    rcases hc with h | h
    · simp at h
    · exact h.2

/-- `demoState` with the unit at `(0, 0)` selected and a two-cell move
area, as `update_move_area` would not produce it but sufficient to
exercise the attack-area fold. -/
def rangedState : MapState :=
  { demoState with curr_sel := some (0, 0), move_area := [(0, 0), (0, 1)] }

/-- Result of `move_attack_area` on `rangedState`. -/
def rangedMA : MapState :=
  match move_attack_area rangedState with
  | .ok s => s
  | .error _ => demoState

/-- Witness for C6 at a concrete input (weapon range `(1, 1)`, move
area `[(0, 0), (0, 1)]`), instantiated at the cells `(1, 1)` and
`(0, 1)`. -/
theorem move_attack_area_spec_witness :
    curr_unit rangedState = some 0 ∧
    (rangedState.units 0).weapon_range = (1, 1) ∧
    move_attack_area rangedState = .ok rangedMA ∧
    (((1 : Int), (1 : Int)) ∈ rangedMA.attack_area ↔
      ((∃ m ∈ rangedState.move_area,
          1 ≤ distance m (1, 1) ∧ distance m (1, 1) ≤ 1) ∧
       ((1 : Int), (1 : Int)) ∉ rangedState.move_area)) ∧
    (((0 : Int), (1 : Int)) ∈ rangedMA.attack_area →
      ((0 : Int), (1 : Int)) ∉ rangedState.move_area) :=
  ⟨rfl, rfl, rfl,
   (move_attack_area_spec rangedState rangedMA 0 1 1 rfl rfl rfl).1 (1, 1),
   (move_attack_area_spec rangedState rangedMA 0 1 1 rfl rfl rfl).2 (0, 1)⟩

/-! ### Claim C4: passability -/

/-- The terrain-tag loop on a list with no sentinel tag blocks exactly
when no tag is shared with the unit's allowed terrains. -/
theorem terrain_blocks_no_sentinel (l ua : List String)
    (hn : "none" ∉ l) (ha : "any" ∉ l) :
    terrain_blocks l ua = true ↔ ∀ a ∈ l, a ∉ ua := by
  induction l with
  | nil => simp [terrain_blocks]
  | cons a l ih =>
    have ha1 : a ≠ "any" := fun h => ha (h ▸ List.mem_cons_self a l)
    have hn1 : a ≠ "none" := fun h => hn (h ▸ List.mem_cons_self a l)
    have ha2 : "any" ∉ l := fun h => ha (List.mem_cons_of_mem a h)
    have hn2 : "none" ∉ l := fun h => hn (List.mem_cons_of_mem a h)
    rw [show terrain_blocks (a :: l) ua
        = if a = "any" then false
          else if a = "none" then true
          else if a ∈ ua then false
          else terrain_blocks l ua from rfl]
    rw [if_neg ha1, if_neg hn1]
    by_cases hau : a ∈ ua
    · rw [if_pos hau]
      simp only [Bool.false_eq_true, false_iff]
      intro h
      exact h a (List.mem_cons_self a l) hau
    · rw [if_neg hau, ih hn2 ha2]
      simp [List.forall_mem_cons, hau]

/-- The terrain-tag loop, characterized for well-formed tag lists (the
sentinels occur only as the whole singleton list): it blocks exactly
when the list is the `"none"` sentinel, or it is not the `"any"`
sentinel and shares no tag with the unit's allowed terrains. -/
theorem terrain_blocks_iff (l ua : List String)
    (hn : "none" ∈ l → l = ["none"]) (ha : "any" ∈ l → l = ["any"]) :
    terrain_blocks l ua = true ↔
      (l = ["none"] ∨ (l ≠ ["any"] ∧ ∀ a ∈ l, a ∉ ua)) := by
  by_cases hnl : "none" ∈ l
  · rw [hn hnl]
    simp [terrain_blocks]
  · by_cases hal : "any" ∈ l
    · rw [ha hal]
      simp [terrain_blocks]
    · rw [terrain_blocks_no_sentinel l ua hnl hal]
      have h1 : l ≠ ["none"] := fun h => hnl (h ▸ List.mem_cons_self _ _)
      have h2 : l ≠ ["any"] := fun h => hal (h ▸ List.mem_cons_self _ _)
      constructor
      · intro h
        exact Or.inr ⟨h2, h⟩
      · rintro (h | ⟨-, h⟩)
        · exact absurd h h1
        · exact h

/-- Counterexample to C4 as stated: with no mover (`unit=None`), a cell
whose `allowed` list is the `"none"` sentinel is *not* declared
blocking — `is_obstacle` returns `False` unconditionally on the
`unit is None` fallback (line 164-165), before the `'none'` test is
ever reached. The claim says only `"none"` blocks in this case, i.e.
this cell should block. -/
def noneTerrainState : MapState :=
  { demoState with
    terrains := fun c =>
      if c = ((0 : Int), (0 : Int)) then
        some { unit := none, allowed := ["none"] }
      else none }

theorem is_obstacle_no_mover_cex :
    noneTerrainState.terrains (0, 0)
      = some { unit := none, allowed := ["none"] } ∧
    is_obstacle noneTerrainState (0, 0) none = some false := by
  constructor
  · decide
  · decide

/-- C4 as amended: for a mover `uid`, the cell blocks exactly when (a)
it is occupied and the occupant is an enemy of the mover — otherwise,
with no occupant, (b) its `allowed` list is the `"none"` sentinel or
shares no tag with the mover's allowed terrains and is not the `"any"`
sentinel (characterized for well-formed tag lists, where a sentinel
occurs only as the whole list); but when the mover is absent the cell
never blocks, whatever its `allowed` list. -/
theorem is_obstacle_characterization (s : MapState) (c : Coord)
    (t : Terrain) (uid : UnitId)
    (ht : s.terrains c = some t)
    (hwf_none : "none" ∈ t.allowed → t.allowed = ["none"])
    (hwf_any : "any" ∈ t.allowed → t.allowed = ["any"]) :
    (∀ vid, t.unit = some vid →
        is_obstacle s c (some uid) = some (s.are_enemies uid vid)) ∧
    (t.unit = none →
        (is_obstacle s c (some uid) = some true ↔
          (t.allowed = ["none"] ∨
           (t.allowed ≠ ["any"] ∧
            ∀ a ∈ t.allowed, a ∉ (s.units uid).allowed_terrains)))) ∧
    is_obstacle s c none = some false := by
  refine ⟨?_, ?_, ?_⟩
  · intro vid hv
    unfold is_obstacle
    rw [ht]
    simp [hv]
  · intro hv
    unfold is_obstacle
    rw [ht]
    simp only [hv, Option.map_some', Option.some.injEq]
    rw [← terrain_blocks_iff t.allowed (s.units uid).allowed_terrains
          hwf_none hwf_any]
  · unfold is_obstacle
    rw [ht]
    cases t.unit <;> simp

/-- A cell with a tag list foreign to the mover, and an occupied cell,
for the C4 witness. -/
def rockState : MapState :=
  { demoState with
    terrains := fun c =>
      if c = ((0 : Int), (0 : Int)) then
        some { unit := none, allowed := ["rock"] }
      else if c = ((1 : Int), (0 : Int)) then
        some { unit := some 1, allowed := ["any"] }
      else none }

/-- Witness for the amended C4 at a concrete input: terrain `["rock"]`,
mover 0 with allowed terrains `["grass"]`. -/
theorem is_obstacle_characterization_witness :
    rockState.terrains (0, 0) = some { unit := none, allowed := ["rock"] } ∧
    ((∀ vid, (Terrain.mk none ["rock"]).unit = some vid →
        is_obstacle rockState (0, 0) (some 0)
          = some (rockState.are_enemies 0 vid)) ∧
     ((Terrain.mk none ["rock"]).unit = none →
        (is_obstacle rockState (0, 0) (some 0) = some true ↔
          ((Terrain.mk none ["rock"]).allowed = ["none"] ∨
           ((Terrain.mk none ["rock"]).allowed ≠ ["any"] ∧
            ∀ a ∈ (Terrain.mk none ["rock"]).allowed,
              a ∉ (rockState.units 0).allowed_terrains)))) ∧
     is_obstacle rockState (0, 0) none = some false) :=
  ⟨by decide,
   is_obstacle_characterization rockState (0, 0)
     (Terrain.mk none ["rock"]) 0 (by decide) (by decide) (by decide)⟩

/-! ### Claim C5: first selection -/

/-- Folding a step that only ever appends preserves membership. -/
theorem mem_foldl_of_mem {β : Type} (f : List Coord → β → List Coord)
    (hf : ∀ acc b x, x ∈ acc → x ∈ f acc b) :
    ∀ (l : List β) (acc : List Coord) (x : Coord), x ∈ acc → x ∈ l.foldl f acc
  | [], _, _, h => h
  | b :: l, acc, x, h => mem_foldl_of_mem f hf l (f acc b) x (hf acc b x h)

/-- The flood-fill expansion step keeps every already-visited cell. -/
theorem mem_expandStep_self (s : MapState) (uid : UnitId) (l : List Coord)
    (x : Coord) (hx : x ∈ l) : x ∈ expandStep s uid l := by
  unfold expandStep
  refine mem_foldl_of_mem _ ?_ l l x hx
  intro acc c x hxacc
  refine mem_foldl_of_mem _ ?_ (neighborCandidates c) acc x hxacc
  intro acc n x h
  split
  · exact List.mem_append_left _ h
  · exact h

/-- The reachable area always contains its origin. -/
theorem mem_reachable_origin (s : MapState) (uid : UnitId) (origin : Coord) :
    ∀ b : Nat, origin ∈ reachable_area s uid origin b
  | 0 => by simp [reachable_area]
  | b + 1 => mem_expandStep_self s uid _ origin (mem_reachable_origin s uid origin b)

/-- The reachable-area flood fill only reads the grid and unit data,
never the selection fields, so shifting the selection leaves it
unchanged. -/
theorem reachable_area_sel (s : MapState) (cs ps : Option Coord)
    (ap : List Coord) (uid : UnitId) (origin : Coord) :
    ∀ b, reachable_area
        { s with curr_sel := cs, prev_sel := ps, arrow_path := ap }
        uid origin b = reachable_area s uid origin b
  | 0 => rfl
  | b + 1 => by
    show expandStep _ uid _ = expandStep s uid _
    rw [reachable_area_sel s cs ps ap uid origin b]
    rfl

/-- C5 as amended: on a first selection (`curr_sel` previously `None`),
the move and attack areas are computed — with `move_area` the
pathfinder's reachable area, non-empty since it contains the selected
coordinate, and `attack_area` the move-attack fold over it — exactly
when the selected cell holds a unit that has not yet acted, whatever
its team; if the cell is empty or its unit has already acted, both
areas are cleared. -/
theorem select_idle_areas (s s' : MapState) (coord : Coord) (t : Terrain)
    (hcs : s.curr_sel = none)
    (ht : s.terrains coord = some t)
    (h : select_idle s coord = .ok s') :
    ((t.unit = none ∨ ∀ uid, t.unit = some uid → (s.units uid).played = true) →
       s'.move_area = [] ∧ s'.attack_area = []) ∧
    (∀ uid, t.unit = some uid → (s.units uid).played = false →
       s'.move_area = reachable_area s uid coord (s.units uid).movement ∧
       coord ∈ s'.move_area ∧ s'.move_area ≠ [] ∧
       s'.attack_area = s'.move_area.foldl
           (fun acc c => set_attack_area s'.move_area
             (s.units uid).weapon_range.1 (s.units uid).weapon_range.2 c acc)
           []) := by
  cases htu : t.unit with
  | none =>
    simp only [select_idle, hcs, get_unit, ht, htu, Option.map_some',
               Except.ok.injEq] at h
    subst h
    exact ⟨fun _ => ⟨rfl, rfl⟩, fun uid hv => by simp at hv⟩
  | some uid =>
    cases hp : (s.units uid).played with
    | true =>
      simp only [select_idle, hcs, get_unit, ht, htu, Option.map_some',
                 hp, if_true, Except.ok.injEq] at h
      subst h
      refine ⟨fun _ => ⟨rfl, rfl⟩, fun uid' hv hp' => ?_⟩
      rw [show uid' = uid by simpa using hv.symm] at hp'
      rw [hp] at hp'
      exact absurd hp' (by simp)
    | false =>
      simp only [select_idle, hcs, get_unit, ht, htu, Option.map_some',
                 hp, Bool.false_eq_true, if_false, update_move_area,
                 curr_unit, move_attack_area, Except.ok.injEq] at h
      subst h
      refine ⟨?_, ?_⟩
      · rintro (h | h)
        · simp at h
        · have hx := h uid rfl
          rw [hp] at hx
          exact absurd hx (by simp)
      · rintro uid' hv hp'
        obtain rfl : uid = uid' := by simpa using hv
        refine ⟨?_, ?_, ?_, ?_⟩
        · exact reachable_area_sel s (some coord) none [] uid coord _
        · exact mem_reachable_origin _ uid coord _
        · exact List.ne_nil_of_mem (mem_reachable_origin _ uid coord _)
        · rfl

/-- Result of a first selection of the enemy-occupied cell `(1, 1)` of
`demoState`. -/
def demoEnemySel : MapState :=
  match select_idle demoState (1, 1) with
  | .ok s => s
  | .error _ => demoState

/-- Counterexample to C5 as stated: unit 1 is *not* friendly
(`is_mine 1 = false`) and has not acted, yet a first selection of its
cell computes a non-empty move area — the code's first-selection branch
checks only `unit is None or unit.played`, never team ownership, so
enemy units get their areas shown too. -/
theorem select_idle_enemy_cex :
    demoState.is_mine 1 = false ∧
    (demoState.units 1).played = false ∧
    (demoState.terrains (1, 1)).map Terrain.unit = some (some 1) ∧
    select_idle demoState (1, 1) = .ok demoEnemySel ∧
    demoEnemySel.move_area ≠ [] := by
  refine ⟨rfl, rfl, by decide, rfl, by decide⟩

/-- Witness for the amended C5 at a concrete input: first selection of
the not-yet-acted unit 1 at `(1, 1)` in `demoState`. -/
theorem select_idle_areas_witness :
    demoState.curr_sel = none ∧
    demoState.terrains (1, 1) = some { unit := some 1, allowed := ["any"] } ∧
    select_idle demoState (1, 1) = .ok demoEnemySel ∧
    ((((Terrain.mk (some 1) ["any"]).unit = none ∨
       ∀ uid, (Terrain.mk (some 1) ["any"]).unit = some uid →
         (demoState.units uid).played = true) →
        demoEnemySel.move_area = [] ∧ demoEnemySel.attack_area = []) ∧
     (∀ uid, (Terrain.mk (some 1) ["any"]).unit = some uid →
        (demoState.units uid).played = false →
        demoEnemySel.move_area
          = reachable_area demoState uid (1, 1) (demoState.units uid).movement ∧
        ((1 : Int), (1 : Int)) ∈ demoEnemySel.move_area ∧
        demoEnemySel.move_area ≠ [] ∧
        demoEnemySel.attack_area = demoEnemySel.move_area.foldl
            (fun acc c => set_attack_area demoEnemySel.move_area
              (demoState.units uid).weapon_range.1
              (demoState.units uid).weapon_range.2 c acc) [])) :=
  ⟨rfl, by decide, rfl,
   select_idle_areas demoState demoEnemySel (1, 1)
     (Terrain.mk (some 1) ["any"]) rfl (by decide) rfl⟩

/-! ### Claim C9: cell lookup and bounds -/

/-- A 1×1 map whose only cell received no tile from any layer: the
`__init__` loop (`if coord not in self.terrains and cell.tile is not
None`) inserts a terrain only for cells that carry a tile, so such a
state is reachable from a map file with an empty cell. -/
def untiledState : MapState :=
  { demoState with w := 1, h := 1, terrains := fun _ => none }

/-- Counterexample to C9 as stated: `(0, 0)` is in bounds
(`check_coord` holds) yet the cell lookup fails — `__getitem__` is a
raw dictionary access, not a bounds test, so an in-bounds coordinate
without a terrain entry raises `KeyError`. -/
theorem getitem_inbounds_failure_cex :
    check_coord untiledState (0, 0) = true ∧
    getitem untiledState (0, 0) = none := by
  constructor
  · decide
  · decide

/-- C9 as amended: the lookup succeeds only at coordinates holding a
terrain entry; under the loader invariant that terrain entries exist
only at in-bounds coordinates, every out-of-bounds lookup fails with
`KeyError` (never silently clamped), and the bounds-checked
`neighbors` succeeds exactly on in-bounds coordinates; but an in-bounds
coordinate may still fail when no tile layer covered it (see the
counterexample). -/
theorem lookup_bounds (s : MapState)
    (hinv : ∀ c t, s.terrains c = some t → check_coord s c = true)
    (c : Coord) :
    (check_coord s c = false → getitem s c = none) ∧
    (neighbors s c).isOk = check_coord s c := by
  constructor
  · intro hb
    unfold getitem
    cases hc : s.terrains c with
    | none => rfl
    | some t =>
      have hcc := hinv c t hc
      rw [hb] at hcc
      exact absurd hcc (by simp)
  · cases hcc : check_coord s c with
    | true =>
      unfold neighbors
      rw [if_pos hcc]
      rfl
    | false =>
      unfold neighbors
      rw [if_neg (by simp [hcc])]
      rfl

/-- Witness for the amended C9 at a concrete input: the out-of-bounds
coordinate `(5, 0)` of the 3×3 `demoState`. -/
theorem lookup_bounds_witness :
    check_coord demoState (5, 0) = false ∧
    ((check_coord demoState (5, 0) = false → getitem demoState (5, 0) = none) ∧
     (neighbors demoState (5, 0)).isOk = check_coord demoState (5, 0)) :=
  ⟨by decide,
   lookup_bounds demoState
     (by
       intro c t h
       have hP : 0 ≤ c.1 ∧ c.1 < 3 ∧ 0 ≤ c.2 ∧ c.2 < 3 := by
         by_contra hP
         simp only [demoState, if_neg hP] at h
         exact Option.noConfusion h
       simp only [check_coord, demoState]
       rw [Bool.and_eq_true, Bool.and_eq_true, Bool.and_eq_true]
       refine ⟨⟨⟨?_, ?_⟩, ?_⟩, ?_⟩ <;> simp [decide_eq_true_eq] <;> omega)
     (5, 0)⟩
